import Mathlib

/-!
Verification development for the credential cache/updater of `ack-ram-tool`
(`pkg/credentials/provider/updater.go`).

The Go code is shallowly embedded: `time.Time` becomes `GoTime` (a wall-clock
instant as an integer plus an optional monotonic reading, mirroring Go's
`Round(0)`/`Before` semantics), the `Updater`'s mutable fields become an
explicit state record threaded through each method, and the injected
`getCredentials` capability becomes a function from a context-cancellation
flag and a call index to a Go-style `(value, error)` result.  Durations are
integers (nanoseconds); `time.Duration` division truncates toward zero, i.e.
`Int.tdiv`.
-/

/-- Model of Go `time.Time`: a wall-clock reading plus an optional monotonic
clock reading.  `Round(0)` strips the monotonic reading; `Before` compares
monotonic readings when both carry one and wall clocks otherwise; `Add` shifts
both readings. -/
structure GoTime where
  wall : Int
  mono : Option Int
deriving DecidableEq

/-- Go's zero `time.Time{}`: no monotonic reading. -/
def GoTime.zero : GoTime := ⟨0, none⟩

/-- Go `t.Round(0)`: strips the monotonic clock reading, wall clock unchanged. -/
def GoTime.round0 (t : GoTime) : GoTime := ⟨t.wall, none⟩

/-- Go `t.Add(d)`. -/
def GoTime.add (t : GoTime) (d : Int) : GoTime :=
  ⟨t.wall + d, t.mono.map (fun m => m + d)⟩

/-- Go `t.Before(u)`: compares monotonic readings when both have one,
wall clocks otherwise. -/
def GoTime.before (t u : GoTime) : Bool :=
  match t.mono, u.mono with
  | some a, some b => decide (a < b)
  | _, _ => decide (t.wall < u.wall)

/-- The credential value (`provider.Credentials`): access key id/secret,
optional security token, expiration timestamp. -/
structure Credentials where
  AccessKeyId : String
  AccessKeySecret : String
  SecurityToken : String
  Expiration : GoTime
deriving DecidableEq

/-- Modelled from the spec: `Credentials.DeepCopy` (defined outside the
sampled sources) returns an independent copy of the value — "every handout is
a defensive copy".  At the value level a copy is the value itself; the
allocation aspect (the copy lives at a fresh address) is modelled by the
`Heap` operations below. -/
def Credentials.DeepCopy (c : Credentials) : Credentials := c

/-- Modelled from the spec: the fetch error taxonomy.  `NotEnableError` is the
terminal "feature not enabled" error type (defined outside the sampled
sources); every other error is transient.  `updater.go` distinguishes them
with the type assertion `err.(*NotEnableError)`. -/
inductive GoErr where
  | NotEnableError (msg : String)
  | otherError (msg : String)
deriving DecidableEq

/-- The type assertion `_, ok := err.(*NotEnableError)`. -/
def GoErr.isNotEnable : GoErr → Bool
  | .NotEnableError _ => true
  | .otherError _ => false

/-- A Go-style fallible fetch result: exactly one of credential or error. -/
abbrev FetchResult := Except GoErr Credentials

/-- The injected `getCredentials` capability: given the context's cancellation
state and the zero-based index of this invocation, the result it produces.
The call index makes "how many times the fetch capability was invoked"
observable. -/
abbrev Fetcher := Bool → Nat → FetchResult

/-- `fetch` produced a transient (non-`NotEnableError`) failure. -/
def isTransientFailure : FetchResult → Bool
  | .error e => !e.isNotEnable
  | .ok _ => false

/-- `fetch` produced the terminal `NotEnableError`. -/
def isNotEnableFailure : FetchResult → Bool
  | .error e => e.isNotEnable
  | .ok _ => false

/-- The immutable configuration fields of `provider.Updater`. -/
structure UpdaterCfg where
  expiryWindow : Int
  refreshPeriod : Int
  expiryWindowForRefreshLoop : Int
deriving DecidableEq

/-- `provider.UpdaterOptions`. -/
structure UpdaterOptions where
  ExpiryWindow : Int
  RefreshPeriod : Int
deriving DecidableEq

/-- `provider.NewUpdater`: in particular
`expiryWindowForRefreshLoop = opts.RefreshPeriod + opts.RefreshPeriod/2`
(Go `time.Duration` division truncates toward zero). -/
def NewUpdater (opts : UpdaterOptions) : UpdaterCfg :=
  { expiryWindow := opts.ExpiryWindow
    refreshPeriod := opts.RefreshPeriod
    expiryWindowForRefreshLoop :=
      opts.RefreshPeriod + Int.tdiv opts.RefreshPeriod 2 }

/-- The mutable state of an `Updater`: the cached credential (`u.cred`, `nil`
before the first successful fetch), plus two instrumentation counters —
how many times the fetch capability has been invoked and how many errors have
been logged via `u.logger().Error` (the claims quantify over both). -/
structure UpdaterState where
  cred : Option Credentials
  fetchCount : Nat
  errLogs : Nat
deriving DecidableEq

/-- `Updater.expiration`: zero time when no credential is cached, otherwise
the cached expiration with `Round(0)` applied. -/
def Updater.expiration (st : UpdaterState) : GoTime :=
  match st.cred with
  | none => GoTime.zero
  | some cred => cred.Expiration.round0

/-- `Updater.expired(expiryDelta)`: `exp.Add(-expiryDelta).Before(now)`. -/
def Updater.expired (st : UpdaterState) (expiryDelta : Int) (now : GoTime) : Bool :=
  ((Updater.expiration st).add (-expiryDelta)).before now

/-- `Updater.Expired()`: `u.expired(0)`. -/
def Updater.Expired (st : UpdaterState) (now : GoTime) : Bool :=
  Updater.expired st 0 now

/-- `Updater.setCred`: deep-copies the fetched credential, strips the
monotonic reading from its expiration (`Round(0)`), subtracts the expiry
window when positive, and stores the result. -/
def Updater.setCred (cfg : UpdaterCfg) (st : UpdaterState) (cred : Credentials) :
    UpdaterState :=
  let cred1 := cred.DeepCopy
  let cred2 := { cred1 with Expiration := cred1.Expiration.round0 }
  let cred3 :=
    if cfg.expiryWindow > 0 then
      { cred2 with Expiration := cred2.Expiration.add (-cfg.expiryWindow) }
    else cred2
  { st with cred := some cred3 }

/-- `Updater.refreshCred`: invokes the fetch capability once.  On a
`NotEnableError` it returns the error without logging; on any other error it
logs it and returns it; on success it stores the credential via `setCred`.
The stored credential is only modified on the success path. -/
def Updater.refreshCred (cfg : UpdaterCfg) (fetch : Fetcher) (ctx : Bool)
    (st : UpdaterState) : Option GoErr × UpdaterState :=
  let st1 : UpdaterState := { st with fetchCount := st.fetchCount + 1 }
  match fetch ctx st.fetchCount with
  | .error e =>
    if e.isNotEnable then (some e, st1)
    else (some e, { st1 with errLogs := st1.errLogs + 1 })
  | .ok cred => (none, Updater.setCred cfg st1 cred)

/-- `Updater.Credentials(ctx)`: refreshes synchronously first when the cached
value is expired by the serving window; on a refresh error returns
`(nil, err)`; otherwise returns a deep copy of the cached credential.
The pair mirrors Go's `(*Credentials, error)` return. -/
def Updater.CredentialsCall (cfg : UpdaterCfg) (fetch : Fetcher) (ctx : Bool)
    (now : GoTime) (st : UpdaterState) :
    (Option Credentials × Option GoErr) × UpdaterState :=
  if Updater.Expired st now then
    match Updater.refreshCred cfg fetch ctx st with
    | (some e, st1) => ((none, some e), st1)
    | (none, st1) => ((st1.cred.map Credentials.DeepCopy, none), st1)
  else ((st.cred.map Credentials.DeepCopy, none), st)

/-- The retry loop inside `Updater.refreshCredForLoop`
(`for i := 0; i < maxRetry; i++` with `maxRetry = 5`): stops at the first
success or at a `NotEnableError`; after a transient failure at zero-based
attempt `i` with `i < maxRetry-1`, sleeps `i` seconds before the next attempt.
Arguments: remaining iterations, current `i`, state.  Returns the final state
and the list of sleep durations (in seconds) performed, in order. -/
def Updater.retryLoop (cfg : UpdaterCfg) (fetch : Fetcher) (ctx : Bool) :
    Nat → Nat → UpdaterState → UpdaterState × List Nat
  | 0, _, st => (st, [])
  | n + 1, i, st =>
    match Updater.refreshCred cfg fetch ctx st with
    | (none, st1) => (st1, [])
    | (some e, st1) =>
      if e.isNotEnable then (st1, [])
      else if i < 4 then
        let r := Updater.retryLoop cfg fetch ctx n (i + 1) st1
        (r.1, i :: r.2)
      else
        Updater.retryLoop cfg fetch ctx n (i + 1) st1

/-- `Updater.refreshCredForLoop`: a no-op when the cached credential is not
yet expired by `expiryWindowForRefreshLoop`; otherwise runs the retry loop
(up to 5 attempts). -/
def Updater.refreshCredForLoop (cfg : UpdaterCfg) (fetch : Fetcher) (ctx : Bool)
    (now : GoTime) (st : UpdaterState) : UpdaterState × List Nat :=
  if !(Updater.expired st cfg.expiryWindowForRefreshLoop now) then (st, [])
  else Updater.retryLoop cfg fetch ctx 5 0 st

/-- One iteration of the `select` in `Updater.startRefreshLoop`: when the
context is cancelled (`<-ctx.Done()` fires) the loop breaks (`none`);
otherwise the tick fires and the loop runs `refreshCredForLoop`. -/
def Updater.loopIter (cfg : UpdaterCfg) (fetch : Fetcher) (cancelled : Bool)
    (now : GoTime) (st : UpdaterState) : Option (UpdaterState × List Nat) :=
  if cancelled then none
  else some (Updater.refreshCredForLoop cfg fetch false now st)

/-- `n` consecutive ticks of the background loop (context never cancelled,
clock held at `now`). -/
def Updater.runTicks (cfg : UpdaterCfg) (fetch : Fetcher) (now : GoTime) :
    Nat → UpdaterState → UpdaterState
  | 0, st => st
  | n + 1, st =>
    Updater.runTicks cfg fetch now n
      (Updater.refreshCredForLoop cfg fetch false now st).1

/-! ### Heap model for pointer aliasing

Go hands out `*Credentials` pointers; the defensive-copy property is about
pointer identity, so we model a heap explicitly: addresses are naturals,
`alloc` returns a fresh address (`&localVar` after a struct copy), `write`
models a caller mutating the struct a pointer refers to. -/

/-- An explicit heap of `Credentials` values: the next fresh address plus an
association list mapping addresses to current values (later entries shadow
earlier ones). -/
structure Heap where
  next : Nat
  mem : List (Nat × Credentials)

/-- Dereference a pointer. -/
def Heap.read (h : Heap) (p : Nat) : Option Credentials :=
  h.mem.lookup p

/-- Mutate the value a pointer refers to. -/
def Heap.write (h : Heap) (p : Nat) (c : Credentials) : Heap :=
  { h with mem := (p, c) :: h.mem }

/-- Allocate a fresh cell holding `c` (Go: taking the address of a local
variable) and return its address. -/
def Heap.alloc (h : Heap) (c : Credentials) : Nat × Heap :=
  (h.next, { next := h.next + 1, mem := (h.next, c) :: h.mem })

/-- Modelled from the spec: the heap-level view of `Updater.setCred` storing a
fetched credential.  `DeepCopy` (not in the sampled sources) copies the value,
and `u.cred = &cred` takes the address of the local copy, so the store is a
fresh allocation of the adjusted value; the fetched value's own cell is not
retained.  Returns the new heap and the new `u.cred` pointer. -/
def Updater.setCredH (cfg : UpdaterCfg) (h : Heap) (cred : Credentials) :
    Heap × Nat :=
  let cred2 := { cred with Expiration := cred.Expiration.round0 }
  let cred3 :=
    if cfg.expiryWindow > 0 then
      { cred2 with Expiration := cred2.Expiration.add (-cfg.expiryWindow) }
    else cred2
  let r := h.alloc cred3
  (r.2, r.1)

/-- Modelled from the spec: the heap-level view of the serving path of
`Updater.Credentials` (`cred := u.getCred().DeepCopy(); return &cred, nil`),
for a cached credential that is not expired: dereference `u.cred`, deep-copy
the value into a fresh cell, and hand out the fresh cell's address.
Returns `none` when the cached value is expired (the refresh path is modelled
separately) or when `u.cred` is nil. -/
def Updater.credentialsCallH (now : GoTime) (h : Heap) (credPtr : Option Nat) :
    Option (Nat × Heap) :=
  match credPtr with
  | none => none
  | some q =>
    match h.read q with
    | none => none
    | some c =>
      if Updater.Expired ⟨some c, 0, 0⟩ now then none
      else some (h.alloc c.DeepCopy)

/-- The credential value a `credentialsCallH` result lets the caller observe:
the returned pointer dereferenced in the returned heap. -/
def servedValue (r : Option (Nat × Heap)) : Option Credentials :=
  r.bind (fun pr => pr.2.read pr.1)

/-! ### Concrete fixtures used by witnesses and counterexamples -/

/-- A concrete credential: raw expiration at wall clock 100, no monotonic
reading. -/
def credEx : Credentials := ⟨"akId", "akSecret", "token", ⟨100, none⟩⟩

/-- A fetch capability that always succeeds with `credEx`. -/
def fetchOk : Fetcher := fun _ _ => .ok credEx

/-- A fetch capability that always fails transiently. -/
def fetchFail : Fetcher := fun _ _ => .error (.otherError "boom")

/-- A fetch capability that always returns the terminal `NotEnableError`. -/
def fetchNotEnable : Fetcher := fun _ _ => .error (.NotEnableError "not enabled")

/-- A fetch capability that fails transiently on its first two invocations and
succeeds afterwards. -/
def fetchFailTwice : Fetcher := fun _ n =>
  if n < 2 then .error (.otherError "transient") else .ok credEx

/-- A context-honouring fetch capability: once the context is cancelled it
returns Go's `context.Canceled` error (a transient error as far as the
updater's taxonomy goes); otherwise it succeeds. -/
def fetchHonoursCtx : Fetcher := fun cancelled _ =>
  if cancelled then .error (.otherError "context canceled") else .ok credEx

/-- The empty updater state: no cached credential, counters at zero. -/
def st0 : UpdaterState := ⟨none, 0, 0⟩

/-- Configuration with no expiry window and a 60-unit refresh period. -/
def cfgW : UpdaterCfg := NewUpdater ⟨0, 60⟩

/-- State caching `credEx` (stored expiration 100, window 0). -/
def stWithCred : UpdaterState := Updater.setCred cfgW st0 credEx

/-- Configuration with expiry window 10 and refresh period 10
(so `expiryWindowForRefreshLoop = 15`). -/
def cfgC6 : UpdaterCfg := NewUpdater ⟨10, 10⟩

/-- State caching `credEx` under `cfgC6` (stored expiration `100 - 10 = 90`). -/
def stC6 : UpdaterState := Updater.setCred cfgC6 st0 credEx

/-- A one-cell heap holding `credEx` at address 0. -/
def heapEx : Heap := ⟨1, [(0, credEx)]⟩

/-! ### Helper lemmas -/

theorem isTransientFailure_iff (r : FetchResult) :
    isTransientFailure r = true ↔ ∃ msg, r = .error (.otherError msg) := by
  cases r with
  | error e => cases e <;> simp [isTransientFailure, GoErr.isNotEnable]
  | ok c => simp [isTransientFailure]

theorem isNotEnableFailure_iff (r : FetchResult) :
    isNotEnableFailure r = true ↔ ∃ msg, r = .error (.NotEnableError msg) := by
  cases r with
  | error e => cases e <;> simp [isNotEnableFailure, GoErr.isNotEnable]
  | ok c => simp [isNotEnableFailure]

/-- A stored expiration never carries a monotonic reading. -/
theorem Updater.expiration_mono_none (st : UpdaterState) :
    (Updater.expiration st).mono = none := by
  cases hc : st.cred <;> simp [Updater.expiration, hc, GoTime.round0, GoTime.zero]

/-- `expired` on the nose: `storedExpirationWall - delta < now.wall`. -/
theorem Updater.expired_eq (st : UpdaterState) (d : Int) (now : GoTime) :
    Updater.expired st d now =
      decide ((Updater.expiration st).wall - d < now.wall) := by
  have hm := Updater.expiration_mono_none st
  simp only [Updater.expired, GoTime.before, GoTime.add, hm, Option.map_none']
  rw [decide_eq_decide]
  omega

/-- A call made strictly before the stored expiration finds the credential
not expired by the serving window. -/
theorem Updater.Expired_eq_false_of_before (st : UpdaterState) (now : GoTime)
    (h : GoTime.before now (Updater.expiration st) = true) :
    Updater.Expired st now = false := by
  have hm := Updater.expiration_mono_none st
  have hlt : now.wall < (Updater.expiration st).wall := by
    revert h
    cases hn : now.mono <;> simp [GoTime.before, hm, hn]
  rw [Updater.Expired, Updater.expired_eq]
  simp
  omega

/-- The stored credential after `setCred` (window `W ≥ 0`): the raw value with
the monotonic reading stripped and `W` subtracted from the wall clock. -/
theorem Updater.setCred_cred (cfg : UpdaterCfg) (st : UpdaterState)
    (c : Credentials) (hW : 0 ≤ cfg.expiryWindow) :
    (Updater.setCred cfg st c).cred =
      some { c with Expiration := ⟨c.Expiration.wall - cfg.expiryWindow, none⟩ } := by
  simp only [Updater.setCred, Credentials.DeepCopy, GoTime.round0, GoTime.add]
  split_ifs with h
  · simp
    omega
  · have h0 : cfg.expiryWindow = 0 := by omega
    simp [h0]

theorem Updater.setCred_fetchCount (cfg : UpdaterCfg) (st : UpdaterState)
    (c : Credentials) : (Updater.setCred cfg st c).fetchCount = st.fetchCount := rfl

theorem Updater.setCred_errLogs (cfg : UpdaterCfg) (st : UpdaterState)
    (c : Credentials) : (Updater.setCred cfg st c).errLogs = st.errLogs := rfl

/-- `refreshCred` on a transient failure: error returned as-is, one fetch,
one logged error, cached credential untouched. -/
theorem Updater.refreshCred_transient (cfg : UpdaterCfg) (fetch : Fetcher)
    (ctx : Bool) (st : UpdaterState) (msg : String)
    (h : fetch ctx st.fetchCount = .error (.otherError msg)) :
    Updater.refreshCred cfg fetch ctx st =
      (some (.otherError msg), ⟨st.cred, st.fetchCount + 1, st.errLogs + 1⟩) := by
  simp [Updater.refreshCred, h, GoErr.isNotEnable]

/-- `refreshCred` on the terminal error: error returned as-is, one fetch,
nothing logged, cached credential untouched. -/
theorem Updater.refreshCred_notEnable (cfg : UpdaterCfg) (fetch : Fetcher)
    (ctx : Bool) (st : UpdaterState) (msg : String)
    (h : fetch ctx st.fetchCount = .error (.NotEnableError msg)) :
    Updater.refreshCred cfg fetch ctx st =
      (some (.NotEnableError msg), ⟨st.cred, st.fetchCount + 1, st.errLogs⟩) := by
  simp [Updater.refreshCred, h, GoErr.isNotEnable]

/-- `refreshCred` on success: stores via `setCred`, one fetch. -/
theorem Updater.refreshCred_ok (cfg : UpdaterCfg) (fetch : Fetcher)
    (ctx : Bool) (st : UpdaterState) (c : Credentials)
    (h : fetch ctx st.fetchCount = .ok c) :
    Updater.refreshCred cfg fetch ctx st =
      (none, Updater.setCred cfg ⟨st.cred, st.fetchCount + 1, st.errLogs⟩ c) := by
  simp [Updater.refreshCred, h]

/-- Whatever the fetch result, `refreshCred` invokes the fetch capability
exactly once. -/
theorem Updater.refreshCred_fetchCount (cfg : UpdaterCfg) (fetch : Fetcher)
    (ctx : Bool) (st : UpdaterState) :
    (Updater.refreshCred cfg fetch ctx st).2.fetchCount = st.fetchCount + 1 := by
  rcases hf : fetch ctx st.fetchCount with e | c
  · cases e with
    | NotEnableError msg => simp [Updater.refreshCred_notEnable cfg fetch ctx st msg hf]
    | otherError msg => simp [Updater.refreshCred_transient cfg fetch ctx st msg hf]
  · simp [Updater.refreshCred_ok cfg fetch ctx st c hf, Updater.setCred_fetchCount]

/-- `Credentials(ctx)` on a fresh cache: no fetch, state untouched. -/
theorem Updater.CredentialsCall_not_expired (cfg : UpdaterCfg) (fetch : Fetcher)
    (ctx : Bool) (now : GoTime) (st : UpdaterState)
    (h : Updater.Expired st now = false) :
    Updater.CredentialsCall cfg fetch ctx now st =
      ((st.cred.map Credentials.DeepCopy, none), st) := by
  simp [Updater.CredentialsCall, h]

/-- The retry loop under transient failures only: every remaining attempt is
made, each is logged, the cached credential is untouched, and a sleep of `j`
seconds follows every attempt `j < 4`. -/
theorem Updater.retryLoop_allfail (cfg : UpdaterCfg) (fetch : Fetcher) (ctx : Bool) :
    ∀ n i st, (∀ j, j < n → isTransientFailure (fetch ctx (st.fetchCount + j)) = true) →
      Updater.retryLoop cfg fetch ctx n i st =
        (⟨st.cred, st.fetchCount + n, st.errLogs + n⟩,
         (List.range' i n).filter (fun x => decide (x < 4))) := by
  intro n
  induction n with
  | zero => intro i st _; simp [Updater.retryLoop]
  | succ n ih =>
    intro i st h
    obtain ⟨msg, hm⟩ := (isTransientFailure_iff _).mp (by simpa using h 0 (by omega))
    rw [Updater.retryLoop, Updater.refreshCred_transient cfg fetch ctx st msg hm]
    have hrec := ih (i + 1) ⟨st.cred, st.fetchCount + 1, st.errLogs + 1⟩ (by
      intro j hj
      have := h (j + 1) (by omega)
      simpa [Nat.add_assoc, Nat.add_comm 1 j] using this)
    simp only [GoErr.isNotEnable, hrec, List.range'_succ, List.filter_cons]
    have hstate : (⟨st.cred, st.fetchCount + 1 + n, st.errLogs + 1 + n⟩ : UpdaterState) =
        ⟨st.cred, st.fetchCount + (n + 1), st.errLogs + (n + 1)⟩ := by
      simp; omega
    split_ifs with h4 h5
    all_goals try simp_all
    all_goals omega

/-- The retry loop when the first `k` attempts fail transiently and attempt
`k` succeeds: exactly `k + 1` attempts are made, `k` errors are logged, the
fetched credential is stored, and the sleeps are those following the failed
attempts. -/
theorem Updater.retryLoop_then_ok (cfg : UpdaterCfg) (fetch : Fetcher) (ctx : Bool)
    (c : Credentials) :
    ∀ k n i st, k < n →
      (∀ j, j < k → isTransientFailure (fetch ctx (st.fetchCount + j)) = true) →
      fetch ctx (st.fetchCount + k) = .ok c →
      Updater.retryLoop cfg fetch ctx n i st =
        (Updater.setCred cfg ⟨st.cred, st.fetchCount + k + 1, st.errLogs + k⟩ c,
         (List.range' i k).filter (fun x => decide (x < 4))) := by
  intro k
  induction k with
  | zero =>
    intro n i st hkn _ hok
    match n, hkn with
    | n + 1, _ =>
      rw [Updater.retryLoop,
        Updater.refreshCred_ok cfg fetch ctx st c (by simpa using hok)]
      simp
  | succ k ih =>
    intro n i st hkn h hok
    match n, hkn with
    | n + 1, hkn =>
      obtain ⟨msg, hm⟩ := (isTransientFailure_iff _).mp (by simpa using h 0 (by omega))
      rw [Updater.retryLoop, Updater.refreshCred_transient cfg fetch ctx st msg hm]
      have hrec := ih n (i + 1) ⟨st.cred, st.fetchCount + 1, st.errLogs + 1⟩
        (by omega)
        (by
          intro j hj
          have := h (j + 1) (by omega)
          simpa [Nat.add_assoc, Nat.add_comm 1 j] using this)
        (by simpa [Nat.add_assoc, Nat.add_comm 1 k] using hok)
      simp only [GoErr.isNotEnable, hrec, List.range'_succ, List.filter_cons]
      have hstate : (⟨st.cred, st.fetchCount + 1 + k + 1, st.errLogs + 1 + k⟩ : UpdaterState) =
          ⟨st.cred, st.fetchCount + (k + 1) + 1, st.errLogs + (k + 1)⟩ := by
        simp; omega
      split_ifs with h4 h5
      all_goals try simp_all
      all_goals omega

theorem Heap.read_write_self (h : Heap) (p : Nat) (c : Credentials) :
    (h.write p c).read p = some c := by
  simp [Heap.read, Heap.write, List.lookup]

theorem Heap.read_write_ne (h : Heap) (p q : Nat) (c : Credentials)
    (hne : q ≠ p) : (h.write p c).read q = h.read q := by
  have hb : (q == p) = false := beq_eq_false_iff_ne.mpr hne
  simp [Heap.read, Heap.write, List.lookup, hb]

theorem Heap.alloc_fst (h : Heap) (c : Credentials) : (h.alloc c).1 = h.next := rfl

theorem Heap.read_alloc_self (h : Heap) (c : Credentials) :
    (h.alloc c).2.read (h.alloc c).1 = some c := by
  simp [Heap.read, Heap.alloc, List.lookup]

theorem Heap.read_alloc_ne (h : Heap) (q : Nat) (c : Credentials)
    (hne : q ≠ h.next) : (h.alloc c).2.read q = h.read q := by
  have hb : (q == h.next) = false := beq_eq_false_iff_ne.mpr hne
  simp [Heap.read, Heap.alloc, List.lookup, hb]

/-! ### Claim C1 -/

/-- Claim C1, as stated ("`Expired()` returns true iff `now ≥ E−W`"), is
false at the boundary: with raw expiration `E = 100` and window `W = 0`, at
`now = 100` we have `now ≥ E − W`, yet `Expired()` returns false (the code
uses Go's strict `Before` on the adjusted expiration). -/
theorem C1_counterexample :
    ¬ (Updater.Expired stWithCred ⟨100, none⟩ = true ↔
        credEx.Expiration.wall - cfgW.expiryWindow ≤ (100 : Int)) := by
  decide

/-- Claim C1 (amended): for every credential stored with raw expiration `E`
and configured window `W ≥ 0`, and every current time `now`, `Expired()`
returns true iff `now` is strictly after `E − W` — the window having been
subtracted at store time, and the comparison being Go's strict `Before`. -/
theorem C1_Expired_iff (cfg : UpdaterCfg) (st : UpdaterState) (c : Credentials)
    (now : GoTime) (hW : 0 ≤ cfg.expiryWindow) :
    Updater.Expired (Updater.setCred cfg st c) now = true ↔
      c.Expiration.wall - cfg.expiryWindow < now.wall := by
  have h1 := Updater.setCred_cred cfg st c hW
  rw [Updater.Expired, Updater.expired_eq]
  simp [Updater.expiration, h1, GoTime.round0]

/-- Witness for C1: window 30, raw expiration 100, `now = 71 > 70 = E − W`,
so `Expired()` reports true. -/
theorem C1_Expired_iff_witness :
    Updater.Expired (Updater.setCred (NewUpdater ⟨30, 60⟩) st0 credEx) ⟨71, none⟩ = true :=
  (C1_Expired_iff (NewUpdater ⟨30, 60⟩) st0 credEx ⟨71, none⟩ (by decide)).mpr (by decide)

/-! ### Claim C3 -/

/-- Claim C3: when the fetch capability fails (terminal or transient) during
a synchronous `Credentials(ctx)` call, the very same error is returned, the
returned credential is nil, and the stored credential is exactly what it was
before the call. -/
theorem C3_error_propagation (cfg : UpdaterCfg) (fetch : Fetcher) (ctx : Bool)
    (now : GoTime) (st : UpdaterState) (e : GoErr)
    (hexp : Updater.Expired st now = true)
    (hf : fetch ctx st.fetchCount = .error e) :
    (Updater.CredentialsCall cfg fetch ctx now st).1 = (none, some e) ∧
    (Updater.CredentialsCall cfg fetch ctx now st).2.cred = st.cred := by
  cases e with
  | NotEnableError msg =>
    simp [Updater.CredentialsCall, hexp,
      Updater.refreshCred_notEnable cfg fetch ctx st msg hf]
  | otherError msg =>
    simp [Updater.CredentialsCall, hexp,
      Updater.refreshCred_transient cfg fetch ctx st msg hf]

/-- Witness for C3: an expired empty cache with an always-failing fetch. -/
theorem C3_witness :
    (Updater.CredentialsCall cfgW fetchFail false ⟨200, none⟩ st0).1 =
      (none, some (.otherError "boom")) ∧
    (Updater.CredentialsCall cfgW fetchFail false ⟨200, none⟩ st0).2.cred = st0.cred :=
  C3_error_propagation cfgW fetchFail false ⟨200, none⟩ st0
    (.otherError "boom") (by decide) rfl

/-! ### Claim C10 -/

/-- Claim C10: whenever `Credentials(ctx)` returns a non-nil error, the
returned credential pointer is nil — a failed synchronous refresh never hands
back a stale credential together with the error. -/
theorem C10_nil_on_error (cfg : UpdaterCfg) (fetch : Fetcher) (ctx : Bool)
    (now : GoTime) (st : UpdaterState) (e : GoErr)
    (h : (Updater.CredentialsCall cfg fetch ctx now st).1.2 = some e) :
    (Updater.CredentialsCall cfg fetch ctx now st).1.1 = none := by
  by_cases hexp : Updater.Expired st now = true
  · rcases hr : Updater.refreshCred cfg fetch ctx st with ⟨oe, st1⟩
    cases oe with
    | none => simp [Updater.CredentialsCall, hexp, hr] at h
    | some e2 => simp [Updater.CredentialsCall, hexp, hr]
  · have hexp2 : Updater.Expired st now = false := by simpa using hexp
    simp [Updater.CredentialsCall_not_expired cfg fetch ctx now st hexp2] at h

/-- Witness for C10: the erroring call of the C3 scenario returns nil. -/
theorem C10_witness :
    (Updater.CredentialsCall cfgW fetchFail false ⟨200, none⟩ st0).1.1 = none :=
  C10_nil_on_error cfgW fetchFail false ⟨200, none⟩ st0
    (.otherError "boom") (by decide)

/-! ### Claim C2 -/

/-- Claim C2: a `Credentials(ctx)` call on a non-expired cache invokes the
fetch capability zero times; on an expired cache it invokes it exactly once
(whatever the outcome — no retries on this path); and after a successful
fetch, any later call made strictly before the new adjusted expiration again
invokes the fetch capability zero times. -/
theorem C2_fetch_counts (cfg : UpdaterCfg) (fetch : Fetcher) (ctx : Bool)
    (now : GoTime) (st : UpdaterState) :
    (Updater.Expired st now = false →
      (Updater.CredentialsCall cfg fetch ctx now st).2.fetchCount = st.fetchCount) ∧
    (Updater.Expired st now = true →
      (Updater.CredentialsCall cfg fetch ctx now st).2.fetchCount = st.fetchCount + 1) ∧
    (∀ c, Updater.Expired st now = true →
      fetch ctx st.fetchCount = .ok c →
      ∀ now2 fetch2 ctx2,
        GoTime.before now2
          (Updater.expiration (Updater.CredentialsCall cfg fetch ctx now st).2) = true →
        (Updater.CredentialsCall cfg fetch2 ctx2 now2
            (Updater.CredentialsCall cfg fetch ctx now st).2).2.fetchCount =
          (Updater.CredentialsCall cfg fetch ctx now st).2.fetchCount) := by
  refine ⟨?_, ?_, ?_⟩
  · intro h
    rw [Updater.CredentialsCall_not_expired cfg fetch ctx now st h]
  · intro h
    rcases hr : Updater.refreshCred cfg fetch ctx st with ⟨oe, st1⟩
    have hc : st1.fetchCount = st.fetchCount + 1 := by
      have := Updater.refreshCred_fetchCount cfg fetch ctx st
      rw [hr] at this
      exact this
    cases oe <;> simp [Updater.CredentialsCall, h, hr, hc]
  · intro c h hok now2 fetch2 ctx2 hb
    have hnotexp := Updater.Expired_eq_false_of_before _ now2 hb
    rw [Updater.CredentialsCall_not_expired cfg fetch2 ctx2 now2 _ hnotexp]

/-- Witness for C2: with window 0, raw expiration 100: a fresh read at 50 is
free; an expired read at 200 fetches once; after the successful refresh a
read at 50 (before the new expiration 100) fetches no further. -/
theorem C2_witness :
    (Updater.CredentialsCall cfgW fetchOk false ⟨50, none⟩ stWithCred).2.fetchCount =
      stWithCred.fetchCount ∧
    (Updater.CredentialsCall cfgW fetchOk false ⟨200, none⟩ st0).2.fetchCount = 1 ∧
    (Updater.CredentialsCall cfgW fetchOk false ⟨50, none⟩
        (Updater.CredentialsCall cfgW fetchOk false ⟨200, none⟩ st0).2).2.fetchCount = 1 :=
  ⟨(C2_fetch_counts cfgW fetchOk false ⟨50, none⟩ stWithCred).1 (by decide),
   (C2_fetch_counts cfgW fetchOk false ⟨200, none⟩ st0).2.1 (by decide),
   (C2_fetch_counts cfgW fetchOk false ⟨200, none⟩ st0).2.2 credEx (by decide) rfl
     ⟨50, none⟩ fetchOk false (by decide)⟩

/-! ### Claim C4 -/

/-- Claim C4: in one background refresh cycle that starts expired (by the
loop window), a persistently transiently-failing fetch is attempted exactly
5 times with sleeps of 0, 1, 2, 3 seconds after attempts 0–3 and no sleep
after the last; and if the first `k < 5` attempts fail transiently and
attempt `k` succeeds, the cycle stops there — `k + 1` attempts, sleeps
`0, …, k−1`, and the fetched credential stored. -/
theorem C4_loop_retry_backoff (cfg : UpdaterCfg) (fetch : Fetcher) (ctx : Bool)
    (now : GoTime) (st : UpdaterState)
    (hexp : Updater.expired st cfg.expiryWindowForRefreshLoop now = true) :
    ((∀ j, j < 5 → isTransientFailure (fetch ctx (st.fetchCount + j)) = true) →
      Updater.refreshCredForLoop cfg fetch ctx now st =
        (⟨st.cred, st.fetchCount + 5, st.errLogs + 5⟩, [0, 1, 2, 3])) ∧
    (∀ k c, k < 5 →
      (∀ j, j < k → isTransientFailure (fetch ctx (st.fetchCount + j)) = true) →
      fetch ctx (st.fetchCount + k) = .ok c →
      Updater.refreshCredForLoop cfg fetch ctx now st =
        (Updater.setCred cfg ⟨st.cred, st.fetchCount + k + 1, st.errLogs + k⟩ c,
         List.range k)) := by
  constructor
  · intro h
    rw [Updater.refreshCredForLoop]
    simp only [hexp, Bool.not_true, Bool.false_eq_true, if_false]
    rw [Updater.retryLoop_allfail cfg fetch ctx 5 0 st h]
    congr 1
  · intro k c hk h hok
    rw [Updater.refreshCredForLoop]
    simp only [hexp, Bool.not_true, Bool.false_eq_true, if_false]
    rw [Updater.retryLoop_then_ok cfg fetch ctx c k 5 0 st hk h hok]
    congr 1
    rw [List.range_eq_range']
    apply List.filter_eq_self.mpr
    intro a ha
    have : a < k := by
      have := List.mem_range'.mp ha
      omega
    simp
    omega

/-- Witness for C4: an always-failing fetch exhausts all 5 attempts with
sleeps `[0,1,2,3]`; a fetch failing twice then succeeding stops after the
third attempt with sleeps `[0,1]`. -/
theorem C4_witness :
    Updater.refreshCredForLoop cfgW fetchFail false ⟨200, none⟩ st0 =
      (⟨none, 5, 5⟩, [0, 1, 2, 3]) ∧
    Updater.refreshCredForLoop cfgW fetchFailTwice false ⟨200, none⟩ st0 =
      (Updater.setCred cfgW ⟨none, 3, 2⟩ credEx, List.range 2) :=
  ⟨(C4_loop_retry_backoff cfgW fetchFail false ⟨200, none⟩ st0 (by decide)).1 (by decide),
   (C4_loop_retry_backoff cfgW fetchFailTwice false ⟨200, none⟩ st0 (by decide)).2
     2 credEx (by decide) (by decide) rfl⟩

/-! ### Claim C5 -/

/-- One cycle hitting the terminal error: a single attempt, no sleeps, no
logged error, cached credential unchanged. -/
theorem Updater.refreshCredForLoop_notEnable (cfg : UpdaterCfg) (fetch : Fetcher)
    (ctx : Bool) (now : GoTime) (st : UpdaterState) (msg : String)
    (hf : fetch ctx st.fetchCount = .error (.NotEnableError msg))
    (hexp : Updater.expired st cfg.expiryWindowForRefreshLoop now = true) :
    Updater.refreshCredForLoop cfg fetch ctx now st =
      (⟨st.cred, st.fetchCount + 1, st.errLogs⟩, []) := by
  rw [Updater.refreshCredForLoop]
  simp only [hexp, Bool.not_true, Bool.false_eq_true, if_false]
  rw [Updater.retryLoop, Updater.refreshCred_notEnable cfg fetch ctx st msg hf]
  simp [GoErr.isNotEnable]

/-- Claim C5: when the fetch capability always returns the terminal
`NotEnableError`, a background cycle makes exactly one attempt (no retries,
no sleeps), logs no error and leaves the stored credential unchanged; and
over any number of ticks the loop keeps running, performing exactly one
fetch attempt per tick. -/
theorem C5_notEnable_per_tick (cfg : UpdaterCfg) (fetch : Fetcher)
    (now : GoTime) (st : UpdaterState)
    (hNE : ∀ n, isNotEnableFailure (fetch false n) = true)
    (hexp : Updater.expired st cfg.expiryWindowForRefreshLoop now = true) :
    Updater.refreshCredForLoop cfg fetch false now st =
      (⟨st.cred, st.fetchCount + 1, st.errLogs⟩, []) ∧
    ∀ N, Updater.runTicks cfg fetch now N st =
      ⟨st.cred, st.fetchCount + N, st.errLogs⟩ := by
  have key : ∀ N st2, Updater.expired st2 cfg.expiryWindowForRefreshLoop now = true →
      Updater.runTicks cfg fetch now N st2 =
        ⟨st2.cred, st2.fetchCount + N, st2.errLogs⟩ := by
    intro N
    induction N with
    | zero => intro st2 h2; simp [Updater.runTicks]
    | succ n ih =>
      intro st2 h2
      obtain ⟨msg, hm⟩ := (isNotEnableFailure_iff _).mp (hNE st2.fetchCount)
      rw [Updater.runTicks,
        Updater.refreshCredForLoop_notEnable cfg fetch false now st2 msg hm h2]
      have h3 : Updater.expired ⟨st2.cred, st2.fetchCount + 1, st2.errLogs⟩
          cfg.expiryWindowForRefreshLoop now = true := by
        rw [Updater.expired_eq] at h2 ⊢
        simpa [Updater.expiration] using h2
      rw [ih ⟨st2.cred, st2.fetchCount + 1, st2.errLogs⟩ h3]
      simp
      omega
  obtain ⟨msg, hm⟩ := (isNotEnableFailure_iff _).mp (hNE st.fetchCount)
  exact ⟨Updater.refreshCredForLoop_notEnable cfg fetch false now st msg hm hexp,
    fun N => key N st hexp⟩

/-- Witness for C5: a permanently not-enabled source — one attempt in the
single cycle, ten attempts over ten ticks, nothing logged, nothing stored. -/
theorem C5_witness :
    Updater.refreshCredForLoop cfgW fetchNotEnable false ⟨200, none⟩ st0 =
      (⟨none, 1, 0⟩, []) ∧
    Updater.runTicks cfgW fetchNotEnable ⟨200, none⟩ 10 st0 = ⟨none, 10, 0⟩ :=
  ⟨(C5_notEnable_per_tick cfgW fetchNotEnable ⟨200, none⟩ st0
      (fun _ => rfl) (by decide)).1,
   (C5_notEnable_per_tick cfgW fetchNotEnable ⟨200, none⟩ st0
      (fun _ => rfl) (by decide)).2 10⟩

/-! ### Claim C6 -/

/-- Claim C6, as stated, is false in its tick condition: with window
`W = 10`, refresh period `P = 10` (so `refreshWindowForLoop = 15`), raw
expiration 100 and `now = 80`, the cached credential is *not* within 15 of
its raw expiration (`80 < 100 − 15`), so the claim demands a no-op tick with
zero fetch invocations — yet the cycle runs and invokes the fetch capability
(5 failing attempts), because the code compares against the stored
(window-adjusted) expiration `90`, not the raw one. -/
theorem C6_counterexample :
    (80 : Int) < credEx.Expiration.wall - cfgC6.expiryWindowForRefreshLoop ∧
    (Updater.refreshCredForLoop cfgC6 fetchFail false ⟨80, none⟩ stC6).1.fetchCount ≠
      stC6.fetchCount := by
  decide

/-- Claim C6 (amended): `refreshWindowForLoop = P + P/2` (truncating
division), and a background tick performs its refresh attempts only when the
cached credential is within `refreshWindowForLoop` of its *stored
(window-adjusted)* expiration; otherwise the tick is a no-op invoking the
fetch capability zero times. -/
theorem C6_loop_window (opts : UpdaterOptions) (cfg : UpdaterCfg)
    (fetch : Fetcher) (ctx : Bool) (now : GoTime) (st : UpdaterState) :
    (NewUpdater opts).expiryWindowForRefreshLoop =
      opts.RefreshPeriod + Int.tdiv opts.RefreshPeriod 2 ∧
    (Updater.expired st cfg.expiryWindowForRefreshLoop now = false →
      Updater.refreshCredForLoop cfg fetch ctx now st = (st, [])) := by
  refine ⟨rfl, fun h => ?_⟩
  rw [Updater.refreshCredForLoop]
  simp [h]

/-- Witness for C6: under `cfgC6` the stored expiration is 90, so at
`now = 75` (not past `90 − 15`) the tick is a no-op. -/
theorem C6_witness :
    Updater.refreshCredForLoop cfgC6 fetchFail false ⟨75, none⟩ stC6 = (stC6, []) :=
  (C6_loop_window ⟨10, 10⟩ cfgC6 fetchFail false ⟨75, none⟩ stC6).2 (by decide)

/-! ### Claim C7 -/

/-- Claim C7: after every successful refresh with window `W ≥ 0`, the stored
expiration is the fetched raw expiration normalized (monotonic reading
stripped) minus `W`; and every credential served afterwards (while fresh)
carries exactly that expiration. -/
theorem C7_stored_expiration (cfg : UpdaterCfg) (fetch : Fetcher) (ctx : Bool)
    (st : UpdaterState) (c : Credentials)
    (hW : 0 ≤ cfg.expiryWindow)
    (hf : fetch ctx st.fetchCount = .ok c) :
    (Updater.refreshCred cfg fetch ctx st).2.cred =
      some { c with Expiration := ⟨c.Expiration.wall - cfg.expiryWindow, none⟩ } ∧
    ∀ now2 fetch2 ctx2,
      Updater.Expired (Updater.refreshCred cfg fetch ctx st).2 now2 = false →
      (Updater.CredentialsCall cfg fetch2 ctx2 now2
          (Updater.refreshCred cfg fetch ctx st).2).1.1 =
        some { c with Expiration := ⟨c.Expiration.wall - cfg.expiryWindow, none⟩ } := by
  have hstore : (Updater.refreshCred cfg fetch ctx st).2.cred =
      some { c with Expiration := ⟨c.Expiration.wall - cfg.expiryWindow, none⟩ } := by
    rw [Updater.refreshCred_ok cfg fetch ctx st c hf]
    exact Updater.setCred_cred cfg _ c hW
  refine ⟨hstore, fun now2 fetch2 ctx2 hne => ?_⟩
  rw [Updater.CredentialsCall_not_expired cfg fetch2 ctx2 now2 _ hne]
  simp [hstore, Credentials.DeepCopy]

/-- Witness for C7: window 30, raw expiration 100 — stored and served
expiration 70. -/
theorem C7_witness :
    (Updater.refreshCred (NewUpdater ⟨30, 60⟩) fetchOk false st0).2.cred =
      some { credEx with Expiration := ⟨70, none⟩ } ∧
    (Updater.CredentialsCall (NewUpdater ⟨30, 60⟩) fetchOk false ⟨50, none⟩
        (Updater.refreshCred (NewUpdater ⟨30, 60⟩) fetchOk false st0).2).1.1 =
      some { credEx with Expiration := ⟨70, none⟩ } :=
  ⟨(C7_stored_expiration (NewUpdater ⟨30, 60⟩) fetchOk false st0 credEx
      (by decide) rfl).1,
   (C7_stored_expiration (NewUpdater ⟨30, 60⟩) fetchOk false st0 credEx
      (by decide) rfl).2 ⟨50, none⟩ fetchOk false (by decide)⟩

/-! ### Claim C8 -/

/-- Claim C8, as stated, is false mid-cycle: the retry loop's
`time.Sleep`-based backoff never observes the context, so with the context
cancelled at the start of a refresh cycle — and a fetch that honours
cancellation by returning `context.Canceled`, which the updater treats as a
transient error — the cycle still performs all 5 fetch attempts instead of
"no further fetch attempts after cancellation". -/
theorem C8_counterexample :
    (Updater.refreshCredForLoop cfgW fetchHonoursCtx true ⟨200, none⟩ st0).1.fetchCount ≠
      st0.fetchCount ∧
    (Updater.refreshCredForLoop cfgW fetchHonoursCtx true ⟨200, none⟩ st0).1.fetchCount =
      st0.fetchCount + 5 := by
  decide

/-- Claim C8 (amended): cancellation is observed only at the loop's `select`:
once the context is cancelled, the next loop iteration exits without any
fetch attempt; but a refresh cycle already in progress never consults the
cancellation signal — it behaves exactly as an uncancelled cycle would with
the same fetch results (backoff sleeps and remaining retries included). -/
theorem C8_cancel_at_select (cfg : UpdaterCfg) (fetch : Fetcher) (now : GoTime)
    (st : UpdaterState) :
    Updater.loopIter cfg fetch true now st = none ∧
    ∀ cancelled,
      Updater.refreshCredForLoop cfg fetch cancelled now st =
        Updater.refreshCredForLoop cfg (fun _ => fetch cancelled) false now st := by
  refine ⟨rfl, fun cancelled => ?_⟩
  have key : ∀ n i st2,
      Updater.retryLoop cfg fetch cancelled n i st2 =
        Updater.retryLoop cfg (fun _ => fetch cancelled) false n i st2 := by
    intro n
    induction n with
    | zero => intro i st2; rfl
    | succ n ih =>
      intro i st2
      rw [Updater.retryLoop, Updater.retryLoop]
      have hsame : Updater.refreshCred cfg fetch cancelled st2 =
          Updater.refreshCred cfg (fun _ => fetch cancelled) false st2 := rfl
      rw [← hsame]
      rcases Updater.refreshCred cfg fetch cancelled st2 with ⟨oe, st3⟩
      cases oe with
      | none => rfl
      | some e => simp [ih]
  rw [Updater.refreshCredForLoop, Updater.refreshCredForLoop, key]

/-! ### Claim C9 -/

/-- Claim C9: every credential handed out by the serving path lives at a
fresh address distinct from the cache's own cell, so however the caller
mutates the returned value, the cached cell still holds the original value
and a subsequent call serves exactly what it would have served without the
mutation; symmetrically, storing a fetched credential copies it into a fresh
cell, so later mutation through the fetch's own pointer leaves the cache
unchanged. -/
theorem C9_defensive_copy (cfg : UpdaterCfg) (now : GoTime) (h : Heap)
    (q : Nat) (c : Credentials)
    (hq : q < h.next) (hread : h.read q = some c)
    (hfresh : Updater.Expired ⟨some c, 0, 0⟩ now = false) :
    (∃ p h1, Updater.credentialsCallH now h (some q) = some (p, h1) ∧
      p ≠ q ∧
      ∀ cMut, (h1.write p cMut).read q = some c ∧
        servedValue (Updater.credentialsCallH now ((h1.write p cMut)) (some q)) =
          some c) ∧
    (∀ pf cf, pf < h.next → h.read pf = some cf →
      (Updater.setCredH cfg h cf).2 ≠ pf ∧
      ∀ cMut,
        (((Updater.setCredH cfg h cf).1.write pf cMut)).read
            (Updater.setCredH cfg h cf).2 =
          (Updater.setCredH cfg h cf).1.read (Updater.setCredH cfg h cf).2) := by
  constructor
  · have hcall : Updater.credentialsCallH now h (some q) =
        some (h.alloc c.DeepCopy) := by
      simp [Updater.credentialsCallH, hread, hfresh]
    refine ⟨h.next, (h.alloc c.DeepCopy).2, ?_, ?_, ?_⟩
    · rw [hcall]
      rfl
    · omega
    · intro cMut
      have hq2 : q ≠ h.next := by omega
      have hr1 : (((h.alloc c.DeepCopy).2.write h.next cMut)).read q = some c := by
        rw [Heap.read_write_ne _ _ _ _ hq2, Heap.read_alloc_ne _ _ _ hq2, hread]
      refine ⟨hr1, ?_⟩
      rw [Updater.credentialsCallH]
      simp only [hr1, hfresh]
      rw [servedValue]
      simp [Heap.read_alloc_self, Credentials.DeepCopy]
  · intro pf cf hpf _
    have hne : pf ≠ h.next := by omega
    constructor
    · have : (Updater.setCredH cfg h cf).2 = h.next := by
        simp [Updater.setCredH, Heap.alloc]
      omega
    · intro cMut
      have h2 : (Updater.setCredH cfg h cf).2 = h.next := by
        simp [Updater.setCredH, Heap.alloc]
      rw [h2, Heap.read_write_ne _ _ _ _ (by omega)]

/-- Witness for C9: the one-cell heap holding `credEx` at address 0, read at
time 50 (fresh). -/
theorem C9_witness :
    (∃ p h1, Updater.credentialsCallH ⟨50, none⟩ heapEx (some 0) = some (p, h1) ∧
      p ≠ 0 ∧
      ∀ cMut, (h1.write p cMut).read 0 = some credEx ∧
        servedValue (Updater.credentialsCallH ⟨50, none⟩ ((h1.write p cMut)) (some 0)) =
          some credEx) ∧
    (∀ pf cf, pf < heapEx.next → heapEx.read pf = some cf →
      (Updater.setCredH cfgW heapEx cf).2 ≠ pf ∧
      ∀ cMut,
        (((Updater.setCredH cfgW heapEx cf).1.write pf cMut)).read
            (Updater.setCredH cfgW heapEx cf).2 =
          (Updater.setCredH cfgW heapEx cf).1.read (Updater.setCredH cfgW heapEx cf).2) :=
  C9_defensive_copy cfgW ⟨50, none⟩ heapEx 0 credEx (by decide) rfl (by decide)
